import Mathlib

/-!
# Todo service (`server.js`): record store, REST handlers and client edit state

A shallow embedding of the five REST handlers of `server.js`, of the SQL
statements they send to the `todos` table, and of the edit functions of the
page script, followed by the properties proved about them.

Modelling conventions.

* The table `todos (id SERIAL PRIMARY KEY, text TEXT NOT NULL, created_at
  TIMESTAMP DEFAULT NOW())` is a list of rows in physical order together with
  the last value issued by the id sequence, which ends at 2147483647.
* A path parameter `:id` is a string; the statement `WHERE id = $1` compares an
  `integer` column with it, so the store first reads the string as an integer
  and the statement fails when the store cannot. Every version of the store
  reads a decimal literal that fits in 32 bits as its value; what it makes of
  any other string (a refusal in its own wording, or a value for a notation
  that only some versions know) is an input of the request.
* A text parameter holding the character U+0000 is refused by the store.
* The value of `NOW()`, the wording of the store's refusals and a possible
  failure from outside (connectivity and the like) are inputs of every request
  (`Env`).
* A handler yields `Except String Response`: `.ok r` when the handler sent
  the response `r`, `.error m` when an exception with message `m` left the
  handler before any response was sent.
-/

set_option autoImplicit false

deriving instance DecidableEq for Except

namespace TodoApp

/-! ## JavaScript values and `String.prototype.trim` -/

/-- White space and line terminators removed by `String.prototype.trim`. -/
def isJsWhite (c : Char) : Bool :=
  let n := c.toNat
  n = 0x09 || n = 0x0A || n = 0x0B || n = 0x0C || n = 0x0D || n = 0x20 ||
  n = 0xA0 || n = 0x1680 || (0x2000 ≤ n && n ≤ 0x200A) || n = 0x2028 ||
  n = 0x2029 || n = 0x202F || n = 0x205F || n = 0x3000 || n = 0xFEFF

/-- Characters of a string with leading and trailing white space removed. -/
def trimChars (cs : List Char) : List Char :=
  ((cs.dropWhile isJsWhite).reverse.dropWhile isJsWhite).reverse

/-- The method `s.trim()`. -/
def trim (s : String) : String := ⟨trimChars s.data⟩

/-- A value found in the `text` field of a parsed JSON body (`undefined` when
the field is absent). A string is a sequence of Unicode characters; a
JavaScript string with an unpaired surrogate is outside the model. -/
inductive JsVal where
  | undefined
  | null
  | bool (b : Bool)
  | num (n : Int)
  | str (s : String)
  | arr
  | obj
deriving DecidableEq, Repr

/-- The expression `text?.trim()`: `undefined` (here `none`) for a nullish
`text`, the trimmed string for a string, and a `TypeError` for any other JSON
value, which has no `trim` method. -/
def optionalTrim : JsVal → Except String (Option String)
  | .undefined => .ok none
  | .null => .ok none
  | .str s => .ok (some (trim s))
  | _ => .error "text?.trim is not a function"

/-- The expression `text.trim()`. -/
def callTrim : JsVal → Except String String
  | .str s => .ok (trim s)
  | .undefined => .error "Cannot read properties of undefined (reading 'trim')"
  | .null => .error "Cannot read properties of null (reading 'trim')"
  | _ => .error "text.trim is not a function"

/-- The negation `!v` of the result of `text?.trim()`: `undefined` and the
empty string are falsy. -/
def jsNot : Option String → Bool
  | none => true
  | some s => decide (s = "")

/-! ## The record store -/

/-- A row of the table `todos`. -/
structure Todo where
  id : Int
  text : String
  created_at : Nat
deriving DecidableEq, Repr

/-- The table `todos` with its id sequence: `seq` is the last value that
`nextval` returned (`0` before the first call). -/
structure Store where
  rows : List Todo
  seq : Nat
deriving DecidableEq, Repr

/-- The table right after `CREATE TABLE IF NOT EXISTS todos`. -/
def Store.empty : Store := ⟨[], 0⟩

/-- The refusals of the store that a statement and the table determine. -/
inductive Refusal where
  | nulInText
  | sequenceEnd
  | duplicateKey
deriving DecidableEq, Repr

/-- What a request finds in its environment.

* `now`: the value of `NOW()`.
* `fault`: when the store fails for a reason outside the statement and the
  table (lost connectivity, exhausted memory or disk), the message of the
  error that `pool.query` rejects with.
* `int4Other`: what the store makes of an integer parameter that is not a
  decimal literal fitting in 32 bits (a string holding U+0000 included): its
  refusal, in the wording of its version and locale, or the value of a
  notation that its version knows.
* `wording`: the store's message for each refusal of `Refusal`. -/
structure Env where
  now : Nat
  fault : Option String
  int4Other : String → Except String Int
  wording : Refusal → String

/-- The result object of `pool.query`. -/
structure QResult where
  rows : List Todo
  rowCount : Nat
deriving DecidableEq, Repr

/-- Whether a string holds the character U+0000, which the store refuses in
a text parameter. -/
def hasNul (s : String) : Bool :=
  s.data.any (fun c => decide (c.toNat = 0))

/-- White space skipped by the store around an integer literal. -/
def isPgSpace (c : Char) : Bool :=
  let n := c.toNat
  n = 0x20 || n = 0x09 || n = 0x0A || n = 0x0B || n = 0x0C || n = 0x0D

/-- Value of a run of decimal digits. -/
def digitsValue (ds : List Char) : Nat :=
  ds.foldl (fun a c => 10 * a + (c.toNat - 48)) 0

/-- Optional sign in front of an integer literal. -/
def splitSign : List Char → Bool × List Char
  | c :: r => if c.toNat = 0x2D then (true, r) else if c.toNat = 0x2B then (false, r) else (false, c :: r)
  | [] => (false, [])

/-- Decimal input of the store's `integer` type: optional white space,
optional sign, decimal digits, optional white space, the value fitting in 32
bits. Every version of the store reads such a literal as this value. The
messages of the refusals are those of PostgreSQL 12 to 15 in English (digits
overflowing 32 bits are reported before anything that follows them); they are
used by the sample environment `pg15` only. -/
def pgInt4In (s : String) : Except String Int :=
  let body := splitSign (s.data.dropWhile isPgSpace)
  let digs := body.2.takeWhile Char.isDigit
  let rest := body.2.dropWhile Char.isDigit
  let v := digitsValue digs
  if digs.isEmpty then
    .error ("invalid input syntax for type integer: \"" ++ s ++ "\"")
  else if 2147483648 < v then
    .error ("value \"" ++ s ++ "\" is out of range for type integer")
  else if !(rest.all isPgSpace) then
    .error ("invalid input syntax for type integer: \"" ++ s ++ "\"")
  else if v = 2147483648 && !body.1 then
    .error ("value \"" ++ s ++ "\" is out of range for type integer")
  else
    .ok (if body.1 then -(v : Int) else (v : Int))

/-- The store reading the parameter `$1` of `WHERE id = $1`: the value of a
decimal literal, and for every other string what the environment says. -/
def storeInt4In (env : Env) (id : String) : Except String Int :=
  match pgInt4In id with
  | .ok n => .ok n
  | .error _ => env.int4Other id

/-- English wording of the store's refusals. -/
def pgEnglish : Refusal → String
  | .nulInText => "invalid byte sequence for encoding \"UTF8\": 0x00"
  | .sequenceEnd => "nextval: reached maximum value of sequence \"todos_id_seq\" (2147483647)"
  | .duplicateKey => "duplicate key value violates unique constraint \"todos_pkey\""

/-- What PostgreSQL 12 to 15 with English messages makes of an integer
parameter that is no decimal literal: a refusal. -/
def pg15Other (s : String) : Except String Int :=
  if hasNul s then .error (pgEnglish .nulInText) else pgInt4In s

/-- A sample environment: a working store of PostgreSQL 12 to 15 with English
messages, at time `now`. -/
def pg15 (now : Nat) : Env := ⟨now, none, pg15Other, pgEnglish⟩

/-- Rows in the order of `ORDER BY created_at DESC`. -/
def newerFirst (a b : Todo) : Prop := b.created_at ≤ a.created_at

instance : DecidableRel newerFirst := fun a b => inferInstanceAs (Decidable (b.created_at ≤ a.created_at))

instance : IsTotal Todo newerFirst := ⟨fun a b => Nat.le_total b.created_at a.created_at⟩

instance : IsTrans Todo newerFirst := ⟨fun _ _ _ hab hbc => Nat.le_trans hbc hab⟩

/-- Statement `SELECT id, text, created_at FROM todos ORDER BY created_at DESC`.
Rows with equal `created_at` keep their physical order. -/
def sqlSelectAll (s : Store) : Except String QResult × Store :=
  let rs := s.rows.insertionSort newerFirst
  (.ok ⟨rs, rs.length⟩, s)

/-- Statement `SELECT id, text, created_at FROM todos WHERE id = $1`. -/
def sqlSelectById (env : Env) (id : String) (s : Store) : Except String QResult × Store :=
  match storeInt4In env id with
  | .error e => (.error e, s)
  | .ok n =>
    let rs := s.rows.filter (fun r => decide (r.id = n))
    (.ok ⟨rs, rs.length⟩, s)

/-- Statement `INSERT INTO todos (text) VALUES ($1) RETURNING id, text,
created_at`. The store refuses a text holding U+0000 when it reads the
parameter; the id comes from the sequence, which fails once 2147483647 has
been issued; `created_at` comes from `NOW()`; the primary key rejects an id
that a row already holds (the sequence value stays consumed). -/
def sqlInsert (env : Env) (text : String) (s : Store) : Except String QResult × Store :=
  if hasNul text then (.error (env.wording .nulInText), s)
  else if 2147483647 ≤ s.seq then (.error (env.wording .sequenceEnd), s)
  else
    let id : Int := ((s.seq + 1 : Nat) : Int)
    if s.rows.any (fun r => decide (r.id = id)) then
      (.error (env.wording .duplicateKey), ⟨s.rows, s.seq + 1⟩)
    else
      let row : Todo := ⟨id, text, env.now⟩
      (.ok ⟨[row], 1⟩, ⟨s.rows ++ [row], s.seq + 1⟩)

/-- Statement `UPDATE todos SET text = $1 WHERE id = $2 RETURNING id, text,
created_at`. The store reads the parameters in order: it refuses a text
holding U+0000, then an id that it cannot read as an integer. -/
def sqlUpdate (env : Env) (text : String) (id : String) (s : Store) :
    Except String QResult × Store :=
  if hasNul text then (.error (env.wording .nulInText), s)
  else
    match storeInt4In env id with
    | .error e => (.error e, s)
    | .ok n =>
      let hit := s.rows.filter (fun r => decide (r.id = n))
      let rs := hit.map (fun r => ({ r with text := text } : Todo))
      (.ok ⟨rs, rs.length⟩,
        ⟨s.rows.map (fun r => if r.id = n then ({ r with text := text } : Todo) else r), s.seq⟩)

/-- Statement `DELETE FROM todos WHERE id = $1`. -/
def sqlDelete (env : Env) (id : String) (s : Store) : Except String QResult × Store :=
  match storeInt4In env id with
  | .error e => (.error e, s)
  | .ok n =>
    let hit := s.rows.filter (fun r => decide (r.id = n))
    (.ok ⟨[], hit.length⟩, ⟨s.rows.filter (fun r => !decide (r.id = n)), s.seq⟩)

/-- The call `pool.query(...)`: rejects with the failure from outside when
there is one, and runs the statement otherwise. -/
def pool_query (env : Env) (stmt : Store → Except String QResult × Store) (s : Store) :
    Except String QResult × Store :=
  match env.fault with
  | some m => (.error m, s)
  | none => stmt s

/-! ## The REST handlers -/

/-- Body of a response. -/
inductive Body where
  | none
  | error (message : String)
  | todo (t : Todo)
  | todos (l : List Todo)
deriving DecidableEq, Repr

/-- A response sent by a handler. -/
structure Response where
  status : Nat
  body : Body
deriving DecidableEq, Repr

/-- What a handler leaves behind: a response, or the message of an exception
that escaped it before a response was sent. -/
abbrev Outcome := Except String Response

/-- The call `res.json(result.rows[0])` (status as given). -/
def jsonFirst (status : Nat) (r : QResult) : Response :=
  match r.rows with
  | t :: _ => ⟨status, .todo t⟩
  | [] => ⟨status, .none⟩

/-- Handler `app.get('/api/todos')`. -/
def api_get_todos (env : Env) (s : Store) : Outcome × Store :=
  match pool_query env sqlSelectAll s with
  | (.ok result, s1) => (.ok ⟨200, .todos result.rows⟩, s1)
  | (.error message, s1) => (.ok ⟨500, .error message⟩, s1)

/-- Handler `app.get('/api/todos/:id')`. -/
def api_get_todo (env : Env) (id : String) (s : Store) : Outcome × Store :=
  match pool_query env (sqlSelectById env id) s with
  | (.ok result, s1) =>
    if result.rowCount = 0 then (.ok ⟨404, .error "Tarea no encontrada"⟩, s1)
    else (.ok (jsonFirst 200 result), s1)
  | (.error message, s1) => (.ok ⟨500, .error message⟩, s1)

/-- Handler `app.post('/api/todos')`. The test of `text?.trim()` stands before
the `try` block, so an exception it raises leaves the handler. -/
def api_post_todos (env : Env) (text : JsVal) (s : Store) : Outcome × Store :=
  match optionalTrim text with
  | .error message => (.error message, s)
  | .ok v =>
    if jsNot v then (.ok ⟨400, .error "Texto requerido"⟩, s)
    else
      match callTrim text with
      | .error message => (.ok ⟨500, .error message⟩, s)
      | .ok t =>
        match pool_query env (sqlInsert env t) s with
        | (.ok result, s1) => (.ok (jsonFirst 201 result), s1)
        | (.error message, s1) => (.ok ⟨500, .error message⟩, s1)

/-- Handler `app.put('/api/todos/:id')`. The test of `text?.trim()` stands
before the `try` block, so an exception it raises leaves the handler. -/
def api_put_todo (env : Env) (id : String) (text : JsVal) (s : Store) : Outcome × Store :=
  match optionalTrim text with
  | .error message => (.error message, s)
  | .ok v =>
    if jsNot v then (.ok ⟨400, .error "Texto requerido"⟩, s)
    else
      match callTrim text with
      | .error message => (.ok ⟨500, .error message⟩, s)
      | .ok t =>
        match pool_query env (sqlUpdate env t id) s with
        | (.ok result, s1) =>
          if result.rowCount = 0 then (.ok ⟨404, .error "Tarea no encontrada"⟩, s1)
          else (.ok (jsonFirst 200 result), s1)
        | (.error message, s1) => (.ok ⟨500, .error message⟩, s1)

/-- Handler `app.delete('/api/todos/:id')`. -/
def api_delete_todo (env : Env) (id : String) (s : Store) : Outcome × Store :=
  match pool_query env (sqlDelete env id) s with
  | (.ok result, s1) =>
    if result.rowCount = 0 then (.ok ⟨404, .error "Tarea no encontrada"⟩, s1)
    else (.ok ⟨204, .none⟩, s1)
  | (.error message, s1) => (.ok ⟨500, .error message⟩, s1)

/-! ## Sequences of requests -/

/-- A request to one of the five API routes. -/
inductive Request where
  | list
  | get (id : String)
  | post (text : JsVal)
  | put (id : String) (text : JsVal)
  | delete (id : String)
deriving DecidableEq, Repr

/-- Dispatch of a request to its handler. -/
def handle (env : Env) (req : Request) (s : Store) : Outcome × Store :=
  match req with
  | .list => api_get_todos env s
  | .get id => api_get_todo env id s
  | .post text => api_post_todos env text s
  | .put id text => api_put_todo env id text s
  | .delete id => api_delete_todo env id s

/-- Requests served one after the other: the outcomes in order and the final
store. -/
def run (s : Store) : List (Env × Request) → List Outcome × Store
  | [] => ([], s)
  | (env, req) :: rest =>
    let r := handle env req s
    let rs := run r.2 rest
    (r.1 :: rs.1, rs.2)

/-! ## The page script -/

/-- A call of `fetch` made by the page script. -/
inductive Fetch where
  | list
  | post (text : String)
  | put (id : Int) (text : String)
  | delete (id : Int)
deriving DecidableEq, Repr

/-- The request that a call of `fetch` puts to the API: the id is written into
the path in decimal and the text travels as the `text` field of a JSON
body. -/
def Fetch.toRequest : Fetch → Request
  | .list => .list
  | .post text => .post (.str text)
  | .put id text => .put (toString id) (.str text)
  | .delete id => .delete (toString id)

/-- State of the page script: the variable `editingId` (`none` for `null`). -/
structure Page where
  editingId : Option Int
deriving DecidableEq, Repr

/-- What a call of a function of the page script leaves behind, as far as it
got: the state, the calls of `fetch` it made, in order, and the message of the
exception that ended it, if one did. -/
structure Ran where
  page : Page
  fetches : List Fetch
  thrown : Option String
deriving DecidableEq, Repr

/-- The negation `!editingId`: `null` and `0` are falsy. -/
def idNot : Option Int → Bool
  | none => true
  | some n => decide (n = 0)

/-- Function `loadTodos` as far as its request goes: it fetches the list (the
rendering of the answer is not part of the model). -/
def loadTodos : List Fetch := [Fetch.list]

/-- Function `startEdit`. -/
def startEdit (id : Int) (_p : Page) : Page × List Fetch :=
  (⟨some id⟩, loadTodos)

/-- How `await fetch(...)` ends: the fetch resolves (with a response of any
status), it rejects with a message, or it never settles. -/
inductive FetchEnd where
  | resolved
  | rejected (message : String)
  | pending
deriving DecidableEq, Repr

/-- Function `saveEdit`. `input` is the value of the element `editInput`, or
`none` when the page has no such element; `answer` is how `await fetch(...)`
ends. When the fetch rejects, the rejection leaves the function and the two
statements after the `await` are skipped; when it never settles, the function
stays at the `await`. -/
def saveEdit (input : Option String) (answer : FetchEnd) (p : Page) : Ran :=
  match input with
  | none => ⟨p, [], some "Cannot read properties of null (reading 'value')"⟩
  | some value =>
    let text := trim value
    if decide (text = "") || idNot p.editingId then ⟨p, [], none⟩
    else
      match p.editingId with
      | none => ⟨p, [], none⟩
      | some id =>
        match answer with
        | .rejected m => ⟨p, [Fetch.put id text], some m⟩
        | .pending => ⟨p, [Fetch.put id text], none⟩
        | .resolved => ⟨⟨none⟩, Fetch.put id text :: loadTodos, none⟩

/-- Function `cancelEdit`. -/
def cancelEdit (_p : Page) : Page × List Fetch :=
  (⟨none⟩, loadTodos)

/-! ## Well-formed stores and runs -/

/-- Consistency of the table with its declaration: ids are pairwise distinct
(`PRIMARY KEY`) and every id is a value that the sequence has issued
(`SERIAL`). -/
def Store.WF (s : Store) : Prop :=
  (s.rows.map Todo.id).Nodup ∧ ∀ r ∈ s.rows, 0 < r.id ∧ r.id ≤ (s.seq : Int)

/-- Every stored text is non-empty and equal to its own trim. -/
def Store.TextOk (s : Store) : Prop :=
  ∀ r ∈ s.rows, r.text ≠ "" ∧ trim r.text = r.text

/-- The item of a `201` response. -/
def createdItem : Outcome → Option Todo
  | .ok ⟨201, .todo t⟩ => some t
  | _ => none

/-- Items that the `201` responses of a run returned, in the order of the
run. -/
def createdItems (os : List Outcome) : List Todo :=
  os.filterMap createdItem

/-- Whether an outcome is a response with the given status. -/
def isStatus (status : Nat) : Outcome → Bool
  | .ok r => decide (r.status = status)
  | .error _ => false

/-- Number of responses with the given status in a run. -/
def countStatus (status : Nat) (os : List Outcome) : Nat :=
  os.countP (isStatus status)

/-- The id that a delete request answered 204 named, as the store read it. -/
def deletedId (env : Env) (req : Request) (o : Outcome) : Option Int :=
  match req with
  | .delete id =>
    if isStatus 204 o then
      match storeInt4In env id with
      | .ok n => some n
      | .error _ => none
    else none
  | _ => none

/-- The ids named by the delete requests that a run answered 204, in the
order of the run. -/
def deletedIds (s : Store) : List (Env × Request) → List Int
  | [] => []
  | (env, req) :: rest =>
    let r := handle env req s
    match deletedId env req r.1 with
    | some n => n :: deletedIds r.2 rest
    | none => deletedIds r.2 rest

/-- Whether a request is an update (PUT). -/
def Request.isUpdate : Request → Bool
  | .put _ _ => true
  | _ => false

/-! ## Lemmas on `trim` -/

theorem dropWhile_of_head (p : Char → Bool) :
    ∀ l : List Char, (∀ x, l.head? = some x → p x = false) → l.dropWhile p = l
  | [], _ => rfl
  | a :: t, h => by simp [List.dropWhile_cons, h a rfl]

theorem head_dropWhile (p : Char → Bool) (l : List Char) :
    ∀ x, (l.dropWhile p).head? = some x → p x = false := by
  intro x hx
  have h := List.head?_dropWhile_not p l
  rw [hx] at h
  simpa using h

theorem head_reverse_dropWhile (p : Char → Bool) (l : List Char)
    (h : ∀ x, l.head? = some x → p x = false) :
    ∀ x, ((l.reverse.dropWhile p).reverse).head? = some x → p x = false := by
  intro x hx
  have hsuf : l.reverse.dropWhile p <:+ l.reverse := List.dropWhile_suffix p
  obtain ⟨t, ht⟩ := hsuf
  have hl : l = (l.reverse.dropWhile p).reverse ++ t.reverse := by
    have := congrArg List.reverse ht
    simpa using this.symm
  apply h
  rw [hl]
  cases hb : (l.reverse.dropWhile p).reverse with
  | nil => rw [hb] at hx; simp at hx
  | cons a b => rw [hb] at hx; simpa using hx

theorem trimChars_idem (cs : List Char) : trimChars (trimChars cs) = trimChars cs := by
  unfold trimChars
  have h1 := dropWhile_of_head isJsWhite _
    (head_reverse_dropWhile isJsWhite (cs.dropWhile isJsWhite) (head_dropWhile isJsWhite cs))
  rw [h1, List.reverse_reverse, List.dropWhile_idempotent]

theorem trimChars_blank (cs : List Char) (h : ∀ c ∈ cs, isJsWhite c = true) :
    trimChars cs = [] := by
  unfold trimChars
  rw [List.dropWhile_eq_nil_iff.mpr h]
  rfl

theorem trim_idem (t : String) : trim (trim t) = trim t := by
  simp [trim, trimChars_idem]

theorem trim_blank (t : String) (h : ∀ c ∈ t.data, isJsWhite c = true) : trim t = "" := by
  simp [trim, trimChars_blank t.data h]

theorem any_id_false (rows : List Todo) (n : Int) (h : ∀ r ∈ rows, r.id ≠ n) :
    rows.any (fun r => decide (r.id = n)) = false := by
  simpa [List.any_eq_false] using h

theorem filter_id_nil (rows : List Todo) (n : Int) (h : ∀ r ∈ rows, r.id ≠ n) :
    rows.filter (fun r => decide (r.id = n)) = [] := by
  simpa [List.filter_eq_nil_iff] using h

theorem filter_not_id_self (rows : List Todo) (n : Int) (h : ∀ r ∈ rows, r.id ≠ n) :
    rows.filter (fun r => !decide (r.id = n)) = rows := by
  simpa [List.filter_eq_self] using h

theorem map_id_self (rows : List Todo) (n : Int) (text : String) (h : ∀ r ∈ rows, r.id ≠ n) :
    rows.map (fun r => if r.id = n then ({ r with text := text } : Todo) else r) = rows := by
  induction rows with
  | nil => rfl
  | cons a t ih =>
    have ha : a.id ≠ n := h a (List.mem_cons_self _ _)
    simp [ha, ih (fun r hr => h r (List.mem_cons_of_mem _ hr))]

theorem filter_id_singleton (rows : List Todo) (r : Todo)
    (hnd : (rows.map Todo.id).Nodup) (hr : r ∈ rows) :
    rows.filter (fun x => decide (x.id = r.id)) = [r] := by
  induction rows with
  | nil => simp at hr
  | cons a t ih =>
    rw [List.map_cons, List.nodup_cons] at hnd
    have hat : ∀ x ∈ t, x.id ≠ a.id := by
      intro x hx heq
      exact hnd.1 (heq ▸ List.mem_map_of_mem Todo.id hx)
    rcases List.mem_cons.mp hr with h | h
    · subst h
      rw [List.filter_cons_of_pos (by simp), filter_id_nil t r.id hat]
    · have hne : a.id ≠ r.id := fun heq => hat r h heq.symm
      rw [List.filter_cons_of_neg (by simpa using hne)]
      exact ih hnd.2 h

theorem filter_not_id_erase (rows : List Todo) (r : Todo)
    (hnd : (rows.map Todo.id).Nodup) (hr : r ∈ rows) :
    rows.filter (fun x => !decide (x.id = r.id)) = rows.erase r := by
  induction rows with
  | nil => simp at hr
  | cons a t ih =>
    rw [List.map_cons, List.nodup_cons] at hnd
    have hat : ∀ x ∈ t, x.id ≠ a.id := by
      intro x hx heq
      exact hnd.1 (heq ▸ List.mem_map_of_mem Todo.id hx)
    rcases List.mem_cons.mp hr with h | h
    · subst h
      rw [List.filter_cons_of_neg (by simp), filter_not_id_self t r.id hat]
      simp
    · have hne : a.id ≠ r.id := fun heq => hat r h heq.symm
      have hne2 : a ≠ r := fun heq => hne (heq ▸ rfl)
      rw [List.filter_cons_of_pos (by simpa using hne), ih hnd.2 h, List.erase_cons_tail]
      simpa using hne2

theorem map_id_only (rows : List Todo) (r : Todo) (text : String)
    (hnd : (rows.map Todo.id).Nodup) (hr : r ∈ rows) :
    rows.map (fun x => if x.id = r.id then ({ x with text := text } : Todo) else x) =
      rows.map (fun x => if x = r then (⟨r.id, text, r.created_at⟩ : Todo) else x) := by
  apply List.map_congr_left
  intro x hx
  by_cases hxr : x = r
  · subst hxr; simp
  · have hid : x.id ≠ r.id := fun heq =>
      hxr (List.inj_on_of_nodup_map hnd hx hr heq)
    simp [hxr, hid]

/-! ## The handlers on a string `text` -/

theorem post_str (env : Env) (t : String) (s : Store) :
    api_post_todos env (.str t) s =
      if trim t = "" then (.ok ⟨400, .error "Texto requerido"⟩, s)
      else
        match pool_query env (sqlInsert env (trim t)) s with
        | (.ok result, s1) => (.ok (jsonFirst 201 result), s1)
        | (.error message, s1) => (.ok ⟨500, .error message⟩, s1) := by
  simp only [api_post_todos, optionalTrim, jsNot, callTrim]
  by_cases h : trim t = "" <;> simp [h]

theorem put_str (env : Env) (id : String) (t : String) (s : Store) :
    api_put_todo env id (.str t) s =
      if trim t = "" then (.ok ⟨400, .error "Texto requerido"⟩, s)
      else
        match pool_query env (sqlUpdate env (trim t) id) s with
        | (.ok result, s1) =>
          if result.rowCount = 0 then (.ok ⟨404, .error "Tarea no encontrada"⟩, s1)
          else (.ok (jsonFirst 200 result), s1)
        | (.error message, s1) => (.ok ⟨500, .error message⟩, s1) := by
  simp only [api_put_todo, optionalTrim, jsNot, callTrim]
  by_cases h : trim t = "" <;> simp [h]

/-! ## The statements of the store -/

theorem storeInt4In_decimal (env : Env) (id : String) (n : Int) (h : pgInt4In id = .ok n) :
    storeInt4In env id = .ok n := by
  simp only [storeInt4In, h]

theorem sqlInsert_fresh (env : Env) (text : String) (s : Store)
    (hnul : hasNul text = false) (hseq : s.seq < 2147483647)
    (h : ∀ r ∈ s.rows, r.id ≠ ((s.seq + 1 : Nat) : Int)) :
    sqlInsert env text s =
      (.ok ⟨[⟨((s.seq + 1 : Nat) : Int), text, env.now⟩], 1⟩,
        ⟨s.rows ++ [⟨((s.seq + 1 : Nat) : Int), text, env.now⟩], s.seq + 1⟩) := by
  have hseq2 : ¬ (2147483647 ≤ s.seq) := by omega
  simp only [sqlInsert, hnul, any_id_false _ _ h, Bool.false_eq_true, if_false, if_neg hseq2]

theorem sqlInsert_nul (env : Env) (text : String) (s : Store) (hnul : hasNul text = true) :
    sqlInsert env text s = (.error (env.wording .nulInText), s) := by
  simp only [sqlInsert, hnul, if_true]

theorem sqlInsert_end (env : Env) (text : String) (s : Store) (hnul : hasNul text = false)
    (hseq : 2147483647 ≤ s.seq) :
    sqlInsert env text s = (.error (env.wording .sequenceEnd), s) := by
  simp only [sqlInsert, hnul, Bool.false_eq_true, if_false, if_pos hseq]

theorem sqlUpdate_read (env : Env) (text id : String) (s : Store) (n : Int)
    (hnul : hasNul text = false) (hid : storeInt4In env id = .ok n) :
    sqlUpdate env text id s =
      (.ok ⟨(s.rows.filter (fun r => decide (r.id = n))).map
              (fun r => ({ r with text := text } : Todo)),
            ((s.rows.filter (fun r => decide (r.id = n))).map
              (fun r => ({ r with text := text } : Todo))).length⟩,
        ⟨s.rows.map (fun r => if r.id = n then ({ r with text := text } : Todo) else r),
          s.seq⟩) := by
  simp only [sqlUpdate, hnul, hid, Bool.false_eq_true, if_false]

theorem sqlUpdate_refused (env : Env) (text id : String) (s : Store) (e : String)
    (hnul : hasNul text = false) (hid : storeInt4In env id = .error e) :
    sqlUpdate env text id s = (.error e, s) := by
  simp only [sqlUpdate, hnul, hid, Bool.false_eq_true, if_false]

theorem sqlUpdate_nul (env : Env) (text id : String) (s : Store) (hnul : hasNul text = true) :
    sqlUpdate env text id s = (.error (env.wording .nulInText), s) := by
  simp only [sqlUpdate, hnul, if_true]

theorem sqlDelete_read (env : Env) (id : String) (s : Store) (n : Int)
    (hid : storeInt4In env id = .ok n) :
    sqlDelete env id s =
      (.ok ⟨[], (s.rows.filter (fun r => decide (r.id = n))).length⟩,
        ⟨s.rows.filter (fun r => !decide (r.id = n)), s.seq⟩) := by
  simp only [sqlDelete, hid]

theorem sqlSelectById_read (env : Env) (id : String) (s : Store) (n : Int)
    (hid : storeInt4In env id = .ok n) :
    sqlSelectById env id s =
      (.ok ⟨s.rows.filter (fun r => decide (r.id = n)),
            (s.rows.filter (fun r => decide (r.id = n))).length⟩, s) := by
  simp only [sqlSelectById, hid]

theorem sqlInsert_dup (env : Env) (text : String) (s : Store) (hnul : hasNul text = false)
    (hseq : ¬ (2147483647 ≤ s.seq))
    (hany : (s.rows.any fun r => decide (r.id = ((s.seq + 1 : Nat) : Int))) = true) :
    sqlInsert env text s = (.error (env.wording .duplicateKey), ⟨s.rows, s.seq + 1⟩) := by
  simp only [sqlInsert, hnul, Bool.false_eq_true, if_false, if_neg hseq, hany, if_true]

theorem sqlDelete_refused (env : Env) (id : String) (s : Store) (e : String)
    (hid : storeInt4In env id = .error e) :
    sqlDelete env id s = (.error e, s) := by
  simp only [sqlDelete, hid]

theorem isDigit_range (c : Char) (h : c.isDigit = true) : 48 ≤ c.toNat ∧ c.toNat ≤ 57 := by
  simp only [Char.isDigit, Bool.and_eq_true, decide_eq_true_eq] at h
  constructor
  · exact h.1
  · exact h.2

theorem digitChar_value (k : Nat) (h : k < 10) :
    (Nat.digitChar k).isDigit = true ∧ (Nat.digitChar k).toNat - 48 = k := by
  interval_cases k <;> decide

theorem toDigitsCore_isDigit :
    ∀ (fuel n : Nat) (ds : List Char), (∀ c ∈ ds, c.isDigit = true) →
      ∀ c ∈ Nat.toDigitsCore 10 fuel n ds, c.isDigit = true := by
  intro fuel
  induction fuel with
  | zero => intro n ds h; simpa [Nat.toDigitsCore] using h
  | succ f ih =>
    intro n ds h
    have hd : (Nat.digitChar (n % 10)).isDigit = true :=
      (digitChar_value (n % 10) (Nat.mod_lt _ (by decide))).1
    have hcons : ∀ c ∈ Nat.digitChar (n % 10) :: ds, c.isDigit = true := by
      intro c hc
      rcases List.mem_cons.mp hc with rfl | hc
      · exact hd
      · exact h c hc
    simp only [Nat.toDigitsCore]
    split
    · exact hcons
    · exact ih _ _ hcons

theorem toDigitsCore_value :
    ∀ (fuel n : Nat) (ds : List Char), n < fuel →
      (Nat.toDigitsCore 10 fuel n ds).foldl (fun a c => 10 * a + (c.toNat - 48)) 0 =
        ds.foldl (fun a c => 10 * a + (c.toNat - 48)) n := by
  intro fuel
  induction fuel with
  | zero => intro n ds h; omega
  | succ f ih =>
    intro n ds h
    have hd := (digitChar_value (n % 10) (Nat.mod_lt _ (by decide))).2
    simp only [Nat.toDigitsCore]
    split
    · rename_i h0
      simp only [List.foldl_cons, hd]
      have : 10 * 0 + n % 10 = n := by omega
      rw [this]
    · rename_i h0
      rw [ih _ _ (by omega)]
      simp only [List.foldl_cons, hd]
      have : 10 * (n / 10) + n % 10 = n := by omega
      rw [this]

theorem toDigitsCore_ne_nil :
    ∀ (fuel n : Nat) (ds : List Char), (0 < fuel ∨ ds ≠ []) →
      Nat.toDigitsCore 10 fuel n ds ≠ [] := by
  intro fuel
  induction fuel with
  | zero =>
    intro n ds h
    rcases h with h | h
    · omega
    · simpa [Nat.toDigitsCore] using h
  | succ f ih =>
    intro n ds _
    simp only [Nat.toDigitsCore]
    split
    · exact List.cons_ne_nil _ _
    · exact ih _ _ (Or.inr (List.cons_ne_nil _ _))

theorem pgInt4In_digits (s : String) (h1 : s.data ≠ [])
    (h2 : ∀ c ∈ s.data, c.isDigit = true) (h3 : digitsValue s.data ≤ 2147483647) :
    pgInt4In s = .ok (digitsValue s.data : Int) := by
  have hsp : ∀ c : Char, c.isDigit = true → isPgSpace c = false := by
    intro c hc
    have := isDigit_range c hc
    simp only [isPgSpace, Bool.or_eq_false_iff, decide_eq_false_iff_not]
    omega
  have hdrop : s.data.dropWhile isPgSpace = s.data := by
    apply dropWhile_of_head
    intro x hx
    exact hsp x (h2 x (List.mem_of_mem_head? hx))
  have hsign : splitSign s.data = (false, s.data) := by
    cases hL : s.data with
    | nil => exact absurd hL h1
    | cons c r =>
      have := isDigit_range c (h2 c (by rw [hL]; exact List.mem_cons_self _ _))
      have hm : c.toNat ≠ 0x2D := by omega
      have hp : c.toNat ≠ 0x2B := by omega
      simp only [splitSign, if_neg hm, if_neg hp]
  have htake : s.data.takeWhile Char.isDigit = s.data :=
    List.takeWhile_eq_self_iff.mpr h2
  have hrest : s.data.dropWhile Char.isDigit = [] :=
    List.dropWhile_eq_nil_iff.mpr h2
  have hemp : s.data.isEmpty = false := by
    cases hL : s.data with
    | nil => exact absurd hL h1
    | cons c r => rfl
  have hv1 : ¬ (2147483648 < digitsValue s.data) := by omega
  have hv2 : ¬ (digitsValue s.data = 2147483648) := by omega
  simp only [pgInt4In, hdrop, hsign, htake, hrest, hemp, hv1, hv2, List.all_nil,
    Bool.false_eq_true, if_false, Bool.not_true, decide_False, Bool.false_and]

/-- The decimal rendering of a positive id that fits in 32 bits is read back
by the store as that id. -/
theorem pgInt4In_toString (n : Int) (h0 : 0 ≤ n) (h1 : n ≤ 2147483647) :
    pgInt4In (toString n) = .ok n := by
  obtain ⟨m, rfl⟩ := Int.eq_ofNat_of_zero_le h0
  have hdata : (toString (m : Int)).data = Nat.toDigits 10 m := rfl
  have hval : digitsValue (toString (m : Int)).data = m := by
    rw [hdata]
    exact toDigitsCore_value (m + 1) m [] (Nat.lt_succ_self m)
  have := pgInt4In_digits (toString (m : Int))
    (by rw [hdata]; exact toDigitsCore_ne_nil (m + 1) m [] (Or.inl (Nat.succ_pos m)))
    (by rw [hdata]; exact toDigitsCore_isDigit (m + 1) m [] (by intro c hc; cases hc))
    (by rw [hval]; omega)
  rw [this, hval]

/-! ## Create -/

/-- C1: for every store, every environment and every request whose text is the
empty string or white space only, the create handler answers 400 and leaves the
store (rows and sequence) exactly as it was. -/
theorem post_blank_text_is_400 (env : Env) (s : Store) (t : String)
    (h : ∀ c ∈ t.data, isJsWhite c = true) :
    api_post_todos env (.str t) s = (.ok ⟨400, .error "Texto requerido"⟩, s) := by
  rw [post_str, if_pos (trim_blank t h)]

theorem post_blank_text_is_400_witness :
    (∀ c ∈ "   ".data, isJsWhite c = true) ∧
    api_post_todos (pg15 7) (.str "   ") ⟨[⟨1, "a", 3⟩], 1⟩ =
      (.ok ⟨400, .error "Texto requerido"⟩, ⟨[⟨1, "a", 3⟩], 1⟩) :=
  ⟨by decide, post_blank_text_is_400 (pg15 7) ⟨[⟨1, "a", 3⟩], 1⟩ "   " (by decide)⟩

/-- C2, as the claim states it, fails at two inputs. The text `a`, U+0000, `b`
is non-empty after trimming, the store refuses it, and the create handler
answers 500 and adds no row. On a consistent store whose sequence has issued
its last value 2147483647, the text `tea` gets 500 and no row as well. -/
theorem post_todos_counterexample :
    (trim "a\x00b" ≠ "" ∧
      api_post_todos (pg15 7) (.str "a\x00b") ⟨[⟨1, "a", 3⟩], 1⟩ =
        (.ok ⟨500, .error "invalid byte sequence for encoding \"UTF8\": 0x00"⟩,
          ⟨[⟨1, "a", 3⟩], 1⟩)) ∧
    (trim "tea" ≠ "" ∧ Store.WF ⟨[⟨2147483647, "a", 3⟩], 2147483647⟩ ∧
      api_post_todos (pg15 7) (.str "tea") ⟨[⟨2147483647, "a", 3⟩], 2147483647⟩ =
        (.ok ⟨500, .error
            "nextval: reached maximum value of sequence \"todos_id_seq\" (2147483647)"⟩,
          ⟨[⟨2147483647, "a", 3⟩], 2147483647⟩)) :=
  ⟨⟨by decide, by decide⟩, by decide, ⟨by decide, by decide⟩, by decide⟩

/-- C2 (amended): on a consistent store whose sequence has not issued its last
value, when nothing outside makes the query fail, a create request with a text
that is non-empty after trimming and holds no U+0000 answers 201 with an item
whose text is the trimmed text and whose id is positive and held by no row of
the table; the table afterwards is the old table followed by that item. -/
theorem post_valid_text_is_201 (env : Env) (s : Store) (t : String)
    (hwf : s.WF) (hseq : s.seq < 2147483647) (hfault : env.fault = none)
    (ht : trim t ≠ "") (hnul : hasNul (trim t) = false) :
    ∃ item : Todo,
      (api_post_todos env (.str t) s).1 = .ok ⟨201, .todo item⟩ ∧
      item.text = trim t ∧ 0 < item.id ∧ (∀ r ∈ s.rows, r.id ≠ item.id) ∧
      (api_post_todos env (.str t) s).2.rows = s.rows ++ [item] := by
  have hfresh : ∀ r ∈ s.rows, r.id ≠ ((s.seq + 1 : Nat) : Int) := by
    intro r hr heq
    have := (hwf.2 r hr).2
    rw [heq] at this
    omega
  refine ⟨⟨((s.seq + 1 : Nat) : Int), trim t, env.now⟩, ?_, rfl, ?_, hfresh, ?_⟩
  · rw [post_str, if_neg ht]
    simp only [pool_query, hfault, sqlInsert_fresh _ _ _ hnul hseq hfresh, jsonFirst]
  · show (0 : Int) < ((s.seq + 1 : Nat) : Int)
    omega
  · rw [post_str, if_neg ht]
    simp only [pool_query, hfault, sqlInsert_fresh _ _ _ hnul hseq hfresh]

theorem post_valid_text_is_201_witness :
    ∃ item : Todo,
      (api_post_todos (pg15 9) (.str " Buy milk ") ⟨[⟨1, "a", 3⟩], 1⟩).1 =
        .ok ⟨201, .todo item⟩ ∧
      item.text = trim " Buy milk " ∧ 0 < item.id ∧
      (∀ r ∈ [(⟨1, "a", 3⟩ : Todo)], r.id ≠ item.id) ∧
      (api_post_todos (pg15 9) (.str " Buy milk ") ⟨[⟨1, "a", 3⟩], 1⟩).2.rows =
        [(⟨1, "a", 3⟩ : Todo)] ++ [item] :=
  post_valid_text_is_201 (pg15 9) ⟨[⟨1, "a", 3⟩], 1⟩ " Buy milk "
    ⟨by decide, by decide⟩ (by decide) rfl (by decide) (by decide)

/-! ## Read one -/

/-- C6, as the claim states it, fails: the path parameter `abc` matches no row
of a table holding the single id 1, and the read-one handler answers 500 with
the store's message, not 404. -/
theorem get_todo_counterexample :
    (∀ r ∈ [(⟨1, "a", 3⟩ : Todo)], storeInt4In (pg15 7) "abc" ≠ .ok r.id) ∧
    api_get_todo (pg15 7) "abc" ⟨[⟨1, "a", 3⟩], 1⟩ =
      (.ok ⟨500, .error "invalid input syntax for type integer: \"abc\""⟩, ⟨[⟨1, "a", 3⟩], 1⟩) := by
  decide

/-- C6 (amended): when nothing outside makes the query fail, a path parameter
that the store reads as the integer `n`, with no row of id `n` in the table,
gets 404; a path parameter that the store refuses to read as an integer gets
500 with the message of the refusal. The store is unchanged either way. -/
theorem get_todo_missing (env : Env) (s : Store) (id : String) (hfault : env.fault = none) :
    (∀ n, storeInt4In env id = .ok n → (∀ r ∈ s.rows, r.id ≠ n) →
      api_get_todo env id s = (.ok ⟨404, .error "Tarea no encontrada"⟩, s)) ∧
    (∀ e, storeInt4In env id = .error e →
      api_get_todo env id s = (.ok ⟨500, .error e⟩, s)) := by
  constructor
  · intro n hn hno
    simp [api_get_todo, pool_query, hfault, sqlSelectById, hn, filter_id_nil _ _ hno]
  · intro e he
    simp [api_get_todo, pool_query, hfault, sqlSelectById, he]

theorem get_todo_missing_witness :
    api_get_todo (pg15 7) "2" ⟨[⟨1, "a", 3⟩], 1⟩ =
      (.ok ⟨404, .error "Tarea no encontrada"⟩, ⟨[⟨1, "a", 3⟩], 1⟩) ∧
    api_get_todo (pg15 7) "1x" ⟨[⟨1, "a", 3⟩], 1⟩ =
      (.ok ⟨500, .error "invalid input syntax for type integer: \"1x\""⟩, ⟨[⟨1, "a", 3⟩], 1⟩) :=
  ⟨(get_todo_missing (pg15 7) ⟨[⟨1, "a", 3⟩], 1⟩ "2" rfl).1 2 (by decide) (by decide),
   (get_todo_missing (pg15 7) ⟨[⟨1, "a", 3⟩], 1⟩ "1x" rfl).2 _ (by decide)⟩

/-! ## Exceptions that leave a handler -/

/-- C9: at a body whose `text` is a number the create handler and the update
handler send no response at all: the `TypeError` of `text?.trim()` is raised
before the `try` block and leaves the handler, for every store, environment
and path id. -/
theorem numeric_text_escapes (env : Env) (s : Store) (id : String) (n : Int) :
    api_post_todos env (.num n) s = (.error "text?.trim is not a function", s) ∧
    api_put_todo env id (.num n) s = (.error "text?.trim is not a function", s) :=
  ⟨rfl, rfl⟩

/-- Inside the `try` block a failing store query is answered with 500 and the
failure's message by each of the five handlers (string `text` that is not
blank for create and update). -/
theorem store_failure_is_500 (env : Env) (s : Store) (id t m : String)
    (hfault : env.fault = some m) (ht : trim t ≠ "") :
    api_get_todos env s = (.ok ⟨500, .error m⟩, s) ∧
    api_get_todo env id s = (.ok ⟨500, .error m⟩, s) ∧
    api_post_todos env (.str t) s = (.ok ⟨500, .error m⟩, s) ∧
    api_put_todo env id (.str t) s = (.ok ⟨500, .error m⟩, s) ∧
    api_delete_todo env id s = (.ok ⟨500, .error m⟩, s) := by
  refine ⟨?_, ?_, ?_, ?_, ?_⟩
  · simp [api_get_todos, pool_query, hfault]
  · simp [api_get_todo, pool_query, hfault]
  · rw [post_str, if_neg ht]; simp [pool_query, hfault]
  · rw [put_str, if_neg ht]; simp [pool_query, hfault]
  · simp [api_delete_todo, pool_query, hfault]

/-! ## Update -/

/-- C3, as the claim states it, fails: on a table holding the row of id 1, an
update of id `1` with the text `a`, U+0000, `b`, which is non-empty after
trimming, is refused by the store; the handler answers 500 and the row keeps
its text. -/
theorem put_text_counterexample :
    trim "a\x00b" ≠ "" ∧ storeInt4In (pg15 7) "1" = .ok 1 ∧
    api_put_todo (pg15 7) "1" (.str "a\x00b") ⟨[⟨1, "a", 3⟩], 1⟩ =
      (.ok ⟨500, .error "invalid byte sequence for encoding \"UTF8\": 0x00"⟩,
        ⟨[⟨1, "a", 3⟩], 1⟩) := by
  decide

/-- C3 (amended): on a consistent store, when nothing outside makes the query
fail, an update request for a path id that the store reads as the id of row
`r`, with a text that is non-empty after trimming and holds no U+0000, answers
200 with the item made of the id and `created_at` of `r` and the trimmed
text; in the table that item stands in the place of `r`, every other row is
where and what it was, and the sequence is untouched. -/
theorem put_changes_only_text (env : Env) (s : Store) (id t : String) (r : Todo)
    (hwf : s.WF) (hfault : env.fault = none) (hr : r ∈ s.rows)
    (hid : storeInt4In env id = .ok r.id) (ht : trim t ≠ "")
    (hnul : hasNul (trim t) = false) :
    api_put_todo env id (.str t) s =
      (.ok ⟨200, .todo ⟨r.id, trim t, r.created_at⟩⟩,
        ⟨s.rows.map (fun x => if x = r then (⟨r.id, trim t, r.created_at⟩ : Todo) else x),
          s.seq⟩) := by
  rw [put_str, if_neg ht]
  simp only [pool_query, hfault, sqlUpdate_read env _ id s r.id hnul hid,
    filter_id_singleton s.rows r hwf.1 hr, map_id_only s.rows r (trim t) hwf.1 hr]
  simp [jsonFirst]

theorem put_changes_only_text_witness :
    api_put_todo (pg15 9) "2" (.str " tea ") ⟨[⟨1, "a", 3⟩, ⟨2, "b", 4⟩, ⟨3, "c", 5⟩], 3⟩ =
      (.ok ⟨200, .todo ⟨2, trim " tea ", 4⟩⟩,
        ⟨[⟨1, "a", 3⟩, ⟨2, "b", 4⟩, ⟨3, "c", 5⟩].map
            (fun x => if x = (⟨2, "b", 4⟩ : Todo) then (⟨2, trim " tea ", 4⟩ : Todo) else x), 3⟩) :=
  put_changes_only_text (pg15 9) ⟨[⟨1, "a", 3⟩, ⟨2, "b", 4⟩, ⟨3, "c", 5⟩], 3⟩ "2" " tea "
    ⟨2, "b", 4⟩ ⟨by decide, by decide⟩ rfl (by decide) (by decide) (by decide) (by decide)

/-- C7, as the claim states it, fails at two inputs, on a table holding the
single id 1. With the text `tea`, the path parameter `abc` matches no row and
the update handler answers 500 with the store's message, not 404. With the
text `a`, U+0000, `b`, which is non-empty after trimming, the path parameter
`2` matches no row and the handler answers 500 as well, the store refusing
the text. The table is unchanged both times. -/
theorem put_todo_counterexample :
    (trim "tea" ≠ "" ∧
      (∀ r ∈ [(⟨1, "a", 3⟩ : Todo)], storeInt4In (pg15 7) "abc" ≠ .ok r.id) ∧
      api_put_todo (pg15 7) "abc" (.str "tea") ⟨[⟨1, "a", 3⟩], 1⟩ =
        (.ok ⟨500, .error "invalid input syntax for type integer: \"abc\""⟩,
          ⟨[⟨1, "a", 3⟩], 1⟩)) ∧
    (trim "a\x00b" ≠ "" ∧
      (∀ r ∈ [(⟨1, "a", 3⟩ : Todo)], storeInt4In (pg15 7) "2" ≠ .ok r.id) ∧
      api_put_todo (pg15 7) "2" (.str "a\x00b") ⟨[⟨1, "a", 3⟩], 1⟩ =
        (.ok ⟨500, .error "invalid byte sequence for encoding \"UTF8\": 0x00"⟩,
          ⟨[⟨1, "a", 3⟩], 1⟩)) := by
  decide

/-- C7 (amended): the update handler answers 400 for every path id when the
text is empty or white space only. When the text is non-empty after trimming
and holds no U+0000, and nothing outside makes the query fail, it answers 404
for a path id that the store reads as an integer held by no row, and 500 with
the message of the refusal for a path id that the store refuses to read as an
integer. In all three cases the store is left exactly as it was. -/
theorem put_failures_keep_store (env : Env) (s : Store) (id t : String) :
    ((∀ c ∈ t.data, isJsWhite c = true) →
      api_put_todo env id (.str t) s = (.ok ⟨400, .error "Texto requerido"⟩, s)) ∧
    (trim t ≠ "" → hasNul (trim t) = false → env.fault = none →
      ∀ n, storeInt4In env id = .ok n → (∀ r ∈ s.rows, r.id ≠ n) →
      api_put_todo env id (.str t) s = (.ok ⟨404, .error "Tarea no encontrada"⟩, s)) ∧
    (trim t ≠ "" → hasNul (trim t) = false → env.fault = none →
      ∀ e, storeInt4In env id = .error e →
      api_put_todo env id (.str t) s = (.ok ⟨500, .error e⟩, s)) := by
  refine ⟨?_, ?_, ?_⟩
  · intro h
    rw [put_str, if_pos (trim_blank t h)]
  · intro ht hnul hfault n hn hno
    rw [put_str, if_neg ht]
    simp only [pool_query, hfault, sqlUpdate_read env _ id s n hnul hn, filter_id_nil _ _ hno,
      map_id_self _ _ _ hno]
    simp
  · intro ht hnul hfault e he
    rw [put_str, if_neg ht]
    simp only [pool_query, hfault, sqlUpdate_refused env _ id s e hnul he]

theorem put_failures_keep_store_witness :
    api_put_todo (pg15 7) "1" (.str "  ") ⟨[⟨1, "a", 3⟩], 1⟩ =
      (.ok ⟨400, .error "Texto requerido"⟩, ⟨[⟨1, "a", 3⟩], 1⟩) ∧
    api_put_todo (pg15 7) "2" (.str "tea") ⟨[⟨1, "a", 3⟩], 1⟩ =
      (.ok ⟨404, .error "Tarea no encontrada"⟩, ⟨[⟨1, "a", 3⟩], 1⟩) ∧
    api_put_todo (pg15 7) "abc" (.str "tea") ⟨[⟨1, "a", 3⟩], 1⟩ =
      (.ok ⟨500, .error "invalid input syntax for type integer: \"abc\""⟩, ⟨[⟨1, "a", 3⟩], 1⟩) :=
  ⟨(put_failures_keep_store (pg15 7) ⟨[⟨1, "a", 3⟩], 1⟩ "1" "  ").1 (by decide),
   (put_failures_keep_store (pg15 7) ⟨[⟨1, "a", 3⟩], 1⟩ "2" "tea").2.1 (by decide) (by decide)
     rfl 2 (by decide) (by decide),
   (put_failures_keep_store (pg15 7) ⟨[⟨1, "a", 3⟩], 1⟩ "abc" "tea").2.2 (by decide) (by decide)
     rfl _ (by decide)⟩

/-! ## Delete -/

/-- C4: on a consistent store whose queries do not fail, two delete requests
in a row for a path id that is a decimal literal of the id of row `r` (every
version of the store reads it as that id) answer 204 without a body and then
404; the first removes exactly the row `r` from the
table and the second leaves the store as the first left it. -/
theorem delete_twice (env1 env2 : Env) (s : Store) (id : String) (r : Todo)
    (hwf : s.WF) (hfault1 : env1.fault = none) (hfault2 : env2.fault = none)
    (hr : r ∈ s.rows) (hid : pgInt4In id = .ok r.id) :
    api_delete_todo env1 id s = (.ok ⟨204, .none⟩, ⟨s.rows.erase r, s.seq⟩) ∧
    api_delete_todo env2 id ⟨s.rows.erase r, s.seq⟩ =
      (.ok ⟨404, .error "Tarea no encontrada"⟩, ⟨s.rows.erase r, s.seq⟩) := by
  have hgone : ∀ x ∈ s.rows.erase r, x.id ≠ r.id := by
    intro x hx
    rw [← filter_not_id_erase s.rows r hwf.1 hr] at hx
    simpa using (List.mem_filter.mp hx).2
  constructor
  · simp only [api_delete_todo, pool_query, hfault1,
      sqlDelete_read env1 id s r.id (storeInt4In_decimal env1 id r.id hid),
      filter_id_singleton s.rows r hwf.1 hr, filter_not_id_erase s.rows r hwf.1 hr]
    simp
  · simp only [api_delete_todo, pool_query, hfault2,
      sqlDelete_read env2 id _ r.id (storeInt4In_decimal env2 id r.id hid),
      filter_id_nil _ _ hgone, filter_not_id_self _ _ hgone]
    simp

theorem delete_twice_witness :
    api_delete_todo (pg15 8) "2" ⟨[⟨1, "a", 3⟩, ⟨2, "b", 4⟩, ⟨3, "c", 5⟩], 3⟩ =
      (.ok ⟨204, .none⟩, ⟨[⟨1, "a", 3⟩, ⟨2, "b", 4⟩, ⟨3, "c", 5⟩].erase ⟨2, "b", 4⟩, 3⟩) ∧
    api_delete_todo (pg15 9) "2" ⟨[⟨1, "a", 3⟩, ⟨2, "b", 4⟩, ⟨3, "c", 5⟩].erase ⟨2, "b", 4⟩, 3⟩ =
      (.ok ⟨404, .error "Tarea no encontrada"⟩,
        ⟨[⟨1, "a", 3⟩, ⟨2, "b", 4⟩, ⟨3, "c", 5⟩].erase ⟨2, "b", 4⟩, 3⟩) :=
  delete_twice (pg15 8) (pg15 9) ⟨[⟨1, "a", 3⟩, ⟨2, "b", 4⟩, ⟨3, "c", 5⟩], 3⟩ "2" ⟨2, "b", 4⟩
    ⟨by decide, by decide⟩ rfl rfl (by decide) (by decide)

/-! ## What a request can do to the store -/

theorem get_todos_store (env : Env) (s : Store) : (api_get_todos env s).2 = s := by
  unfold api_get_todos pool_query sqlSelectAll
  cases env.fault <;> rfl

theorem get_todo_store (env : Env) (id : String) (s : Store) : (api_get_todo env id s).2 = s := by
  unfold api_get_todo pool_query sqlSelectById
  cases env.fault with
  | some m => rfl
  | none =>
    cases storeInt4In env id with
    | error e => rfl
    | ok n => dsimp only; split <;> rfl

theorem sqlInsert_cases (env : Env) (text : String) (s : Store) :
    ((∃ e, (sqlInsert env text s).1 = .error e) ∧ (sqlInsert env text s).2.rows = s.rows ∧
      ((sqlInsert env text s).2.seq = s.seq ∨
        (s.seq < 2147483647 ∧ (sqlInsert env text s).2.seq = s.seq + 1))) ∨
    (s.seq < 2147483647 ∧
      sqlInsert env text s =
        (.ok ⟨[⟨((s.seq + 1 : Nat) : Int), text, env.now⟩], 1⟩,
          ⟨s.rows ++ [⟨((s.seq + 1 : Nat) : Int), text, env.now⟩], s.seq + 1⟩)) := by
  by_cases hnul : hasNul text = true
  · left
    rw [sqlInsert_nul env text s hnul]
    exact ⟨⟨_, rfl⟩, rfl, Or.inl rfl⟩
  · have hnul2 : hasNul text = false := by simpa using hnul
    by_cases hseq : 2147483647 ≤ s.seq
    · left
      rw [sqlInsert_end env text s hnul2 hseq]
      exact ⟨⟨_, rfl⟩, rfl, Or.inl rfl⟩
    · have hseq2 : s.seq < 2147483647 := by omega
      by_cases hany : (s.rows.any fun r => decide (r.id = ((s.seq + 1 : Nat) : Int))) = true
      · left
        rw [sqlInsert_dup env text s hnul2 hseq hany]
        exact ⟨⟨_, rfl⟩, rfl, Or.inr ⟨hseq2, rfl⟩⟩
      · right
        refine ⟨hseq2, ?_⟩
        simp only [sqlInsert, hnul2, Bool.false_eq_true, if_false, if_neg hseq, hany]

theorem post_cases (env : Env) (text : JsVal) (s : Store) :
    ((api_post_todos env text s).2.rows = s.rows ∧
      ((api_post_todos env text s).2.seq = s.seq ∨
        (s.seq < 2147483647 ∧ (api_post_todos env text s).2.seq = s.seq + 1)) ∧
      createdItem (api_post_todos env text s).1 = none ∧
      isStatus 201 (api_post_todos env text s).1 = false ∧
      isStatus 204 (api_post_todos env text s).1 = false) ∨
    ∃ t : String, trim t ≠ "" ∧ s.seq < 2147483647 ∧
      api_post_todos env text s =
        (.ok ⟨201, .todo ⟨((s.seq + 1 : Nat) : Int), trim t, env.now⟩⟩,
          ⟨s.rows ++ [⟨((s.seq + 1 : Nat) : Int), trim t, env.now⟩], s.seq + 1⟩) := by
  cases text with
  | str t =>
    rw [post_str]
    by_cases ht : trim t = ""
    · left; rw [if_pos ht]; exact ⟨rfl, Or.inl rfl, rfl, rfl, rfl⟩
    · rw [if_neg ht]
      unfold pool_query
      cases env.fault with
      | some m => left; exact ⟨rfl, Or.inl rfl, rfl, rfl, rfl⟩
      | none =>
        dsimp only
        rcases sqlInsert_cases env (trim t) s with ⟨⟨e, he⟩, hrows, hseq⟩ | ⟨hseq, hok⟩
        · left
          have hpair : sqlInsert env (trim t) s = (.error e, (sqlInsert env (trim t) s).2) := by
            rw [← he]
          rw [hpair]
          exact ⟨hrows, hseq, rfl, rfl, rfl⟩
        · right
          refine ⟨t, ht, hseq, ?_⟩
          rw [hok]
          rfl
  | _ => left; exact ⟨rfl, Or.inl rfl, rfl, rfl, rfl⟩

theorem put_cases (env : Env) (id : String) (text : JsVal) (s : Store) :
    (api_put_todo env id text s).2.seq = s.seq ∧
    ((api_put_todo env id text s).2.rows = s.rows ∨
      ∃ (t : String) (n : Int), trim t ≠ "" ∧
        (api_put_todo env id text s).2.rows =
          s.rows.map (fun r => if r.id = n then ({ r with text := trim t } : Todo) else r)) := by
  cases text with
  | str t =>
    rw [put_str]
    by_cases ht : trim t = ""
    · rw [if_pos ht]; exact ⟨rfl, Or.inl rfl⟩
    · rw [if_neg ht]
      unfold pool_query
      cases env.fault with
      | some m => exact ⟨rfl, Or.inl rfl⟩
      | none =>
        dsimp only
        by_cases hnul : hasNul (trim t) = true
        · rw [sqlUpdate_nul env _ id s hnul]
          exact ⟨rfl, Or.inl rfl⟩
        · have hnul2 : hasNul (trim t) = false := by simpa using hnul
          cases hid : storeInt4In env id with
          | error e =>
            rw [sqlUpdate_refused env _ id s e hnul2 hid]
            exact ⟨rfl, Or.inl rfl⟩
          | ok n =>
            rw [sqlUpdate_read env _ id s n hnul2 hid]
            dsimp only
            split
            · exact ⟨rfl, Or.inr ⟨t, n, ht, rfl⟩⟩
            · exact ⟨rfl, Or.inr ⟨t, n, ht, rfl⟩⟩
  | _ => exact ⟨rfl, Or.inl rfl⟩

theorem delete_cases (env : Env) (id : String) (s : Store) :
    (api_delete_todo env id s).2.seq = s.seq ∧
    ((api_delete_todo env id s).2.rows = s.rows ∨
      ∃ n : Int, (api_delete_todo env id s).2.rows =
        s.rows.filter (fun r => !decide (r.id = n))) := by
  unfold api_delete_todo pool_query
  cases env.fault with
  | some m => exact ⟨rfl, Or.inl rfl⟩
  | none =>
    dsimp only
    cases hid : storeInt4In env id with
    | error e =>
      rw [sqlDelete_refused env id s e hid]
      exact ⟨rfl, Or.inl rfl⟩
    | ok n =>
      rw [sqlDelete_read env id s n hid]
      dsimp only
      split
      · exact ⟨rfl, Or.inr ⟨n, rfl⟩⟩
      · exact ⟨rfl, Or.inr ⟨n, rfl⟩⟩

/-! ## The stored text -/

theorem handle_textOk (env : Env) (req : Request) (s : Store) (h : s.TextOk) :
    (handle env req s).2.TextOk := by
  cases req with
  | list => simpa [handle, get_todos_store] using h
  | get id => simpa [handle, get_todo_store] using h
  | post text =>
    show (api_post_todos env text s).2.TextOk
    rcases post_cases env text s with ⟨h1, _⟩ | ⟨t, ht, _, h1⟩
    · intro r hr; rw [h1] at hr; exact h r hr
    · intro r hr
      rw [h1] at hr
      rcases List.mem_append.mp hr with hr | hr
      · exact h r hr
      · rw [List.mem_singleton.mp hr]
        exact ⟨ht, trim_idem t⟩
  | put id text =>
    show (api_put_todo env id text s).2.TextOk
    rcases (put_cases env id text s).2 with h1 | ⟨t, n, ht, h1⟩
    · intro r hr; rw [h1] at hr; exact h r hr
    · intro r hr
      rw [h1] at hr
      obtain ⟨x, hx, hxr⟩ := List.mem_map.mp hr
      by_cases hid : x.id = n
      · rw [if_pos hid] at hxr
        rw [← hxr]
        exact ⟨ht, trim_idem t⟩
      · rw [if_neg hid] at hxr
        rw [← hxr]
        exact h x hx
  | delete id =>
    show (api_delete_todo env id s).2.TextOk
    rcases (delete_cases env id s).2 with h1 | ⟨n, h1⟩
    · intro r hr; rw [h1] at hr; exact h r hr
    · intro r hr
      rw [h1] at hr
      exact h r (List.mem_filter.mp hr).1

theorem run_textOk (trace : List (Env × Request)) :
    ∀ s : Store, s.TextOk → (run s trace).2.TextOk := by
  induction trace with
  | nil => intro s h; exact h
  | cons e rest ih =>
    intro s h
    obtain ⟨env, req⟩ := e
    exact ih _ (handle_textOk env req s h)

/-- C8: after every sequence of requests served from the empty table (create,
update, delete, and the two reads as well; any path ids, any bodies, with or
without store failures) every row of the table has a text that is non-empty
and equal to its own trim. -/
theorem stored_text_trimmed (trace : List (Env × Request)) :
    ∀ r ∈ (run Store.empty trace).2.rows, r.text ≠ "" ∧ trim r.text = r.text :=
  run_textOk trace Store.empty (by intro r hr; cases hr)

theorem stored_text_trimmed_witness :
    (⟨1, "tea", 5⟩ : Todo) ∈ (run Store.empty
      [(pg15 5, .post (.str " Buy milk ")), (pg15 6, .put "1" (.str "  tea "))]).2.rows ∧
    ("tea" ≠ "" ∧ trim "tea" = "tea") :=
  ⟨by decide, stored_text_trimmed
    [(pg15 5, .post (.str " Buy milk ")), (pg15 6, .put "1" (.str "  tea "))]
    ⟨1, "tea", 5⟩ (by decide)⟩

/-! ## Consistency of the store -/

theorem wf_empty : Store.empty.WF := ⟨List.nodup_nil, by intro r hr; cases hr⟩

theorem wf_of_rows_eq (s s1 : Store) (hwf : s.WF) (hrows : s1.rows = s.rows)
    (hseq : s.seq ≤ s1.seq) : s1.WF := by
  refine ⟨by rw [hrows]; exact hwf.1, ?_⟩
  intro r hr
  rw [hrows] at hr
  have := hwf.2 r hr
  constructor
  · exact this.1
  · have h2 : (s.seq : Int) ≤ (s1.seq : Int) := by exact_mod_cast hseq
    exact le_trans this.2 h2

theorem wf_filter (s : Store) (p : Todo → Bool) (hwf : s.WF) :
    Store.WF ⟨s.rows.filter p, s.seq⟩ := by
  refine ⟨?_, ?_⟩
  · exact List.Nodup.sublist ((List.filter_sublist s.rows).map Todo.id) hwf.1
  · intro r hr
    exact hwf.2 r (List.mem_filter.mp hr).1

theorem wf_update (s : Store) (n : Int) (text : String) (hwf : s.WF) :
    Store.WF ⟨s.rows.map (fun r => if r.id = n then ({ r with text := text } : Todo) else r),
      s.seq⟩ := by
  have hmap : (s.rows.map (fun r => if r.id = n then ({ r with text := text } : Todo) else r)).map
      Todo.id = s.rows.map Todo.id := by
    rw [List.map_map]
    apply List.map_congr_left
    intro r _
    by_cases h : r.id = n <;> simp [h]
  refine ⟨?_, ?_⟩
  · show ((s.rows.map _).map Todo.id).Nodup
    rw [hmap]; exact hwf.1
  · intro r hr
    obtain ⟨x, hx, hxr⟩ := List.mem_map.mp hr
    have hid : r.id = x.id := by
      rw [← hxr]
      by_cases h : x.id = n <;> simp [h]
    rw [hid]
    exact hwf.2 x hx

theorem wf_insert (s : Store) (text : String) (now : Nat) (hwf : s.WF) :
    Store.WF ⟨s.rows ++ [⟨((s.seq + 1 : Nat) : Int), text, now⟩], s.seq + 1⟩ := by
  have hfresh : ∀ r ∈ s.rows, r.id ≠ ((s.seq + 1 : Nat) : Int) := by
    intro r hr heq
    have := (hwf.2 r hr).2
    rw [heq] at this
    omega
  refine ⟨?_, ?_⟩
  · show ((s.rows ++ [_]).map Todo.id).Nodup
    rw [List.map_append, List.nodup_append]
    refine ⟨hwf.1, by simp, ?_⟩
    intro a ha hb
    obtain ⟨r, hr, hra⟩ := List.mem_map.mp ha
    simp at hb
    exact hfresh r hr (by rw [hra, hb]; push_cast; rfl)
  · intro r hr
    rcases List.mem_append.mp hr with hr | hr
    · have := hwf.2 r hr
      refine ⟨this.1, ?_⟩
      show r.id ≤ ((s.seq + 1 : Nat) : Int)
      have := this.2
      omega
    · rw [List.mem_singleton.mp hr]
      show (0 : Int) < ((s.seq + 1 : Nat) : Int) ∧ ((s.seq + 1 : Nat) : Int) ≤ ((s.seq + 1 : Nat) : Int)
      omega

theorem post_wf (env : Env) (text : JsVal) (s : Store) (hwf : s.WF) :
    (api_post_todos env text s).2.WF := by
  rcases post_cases env text s with ⟨hrows, hseq, _⟩ | ⟨t, _, _, h1⟩
  · refine wf_of_rows_eq s _ hwf hrows ?_
    rcases hseq with h | ⟨_, h⟩ <;> omega
  · rw [h1]
    exact wf_insert s (trim t) env.now hwf

theorem put_wf (env : Env) (id : String) (text : JsVal) (s : Store) (hwf : s.WF) :
    (api_put_todo env id text s).2.WF := by
  obtain ⟨hseq, hrows⟩ := put_cases env id text s
  rcases hrows with h | ⟨t, n, _, h⟩
  · exact wf_of_rows_eq s _ hwf h (by omega)
  · have hw := wf_update s n (trim t) hwf
    refine ⟨?_, ?_⟩
    · rw [h]; exact hw.1
    · intro r hr
      rw [h] at hr
      rw [hseq]
      exact hw.2 r hr

theorem delete_wf (env : Env) (id : String) (s : Store) (hwf : s.WF) :
    (api_delete_todo env id s).2.WF := by
  obtain ⟨hseq, hrows⟩ := delete_cases env id s
  rcases hrows with h | ⟨n, h⟩
  · exact wf_of_rows_eq s _ hwf h (by omega)
  · have hw := wf_filter s (fun r => !decide (r.id = n)) hwf
    refine ⟨?_, ?_⟩
    · rw [h]; exact hw.1
    · intro r hr
      rw [h] at hr
      rw [hseq]
      exact hw.2 r hr

theorem handle_wf (env : Env) (req : Request) (s : Store) (hwf : s.WF) :
    (handle env req s).2.WF := by
  cases req with
  | list => simpa [handle, get_todos_store] using hwf
  | get id => simpa [handle, get_todo_store] using hwf
  | post text => exact post_wf env text s hwf
  | put id text => exact put_wf env id text s hwf
  | delete id => exact delete_wf env id s hwf

/-- Every store reached from the empty table through the API is consistent. -/
theorem run_wf (trace : List (Env × Request)) :
    ∀ s : Store, s.WF → (run s trace).2.WF := by
  induction trace with
  | nil => intro s h; exact h
  | cons e rest ih =>
    intro s h
    obtain ⟨env, req⟩ := e
    exact ih _ (handle_wf env req s h)

theorem handle_seq (env : Env) (req : Request) (s : Store) :
    s.seq ≤ (handle env req s).2.seq ∧
    (s.seq ≤ 2147483647 → (handle env req s).2.seq ≤ 2147483647) := by
  cases req with
  | list => simp [handle, get_todos_store]
  | get id => simp [handle, get_todo_store]
  | post text =>
    show s.seq ≤ (api_post_todos env text s).2.seq ∧
      (s.seq ≤ 2147483647 → (api_post_todos env text s).2.seq ≤ 2147483647)
    rcases post_cases env text s with ⟨_, hseq, _⟩ | ⟨t, _, hlt, h1⟩
    · rcases hseq with h | ⟨hlt, h⟩ <;> constructor <;> omega
    · rw [h1]
      constructor
      · exact Nat.le_succ _
      · intro _; exact hlt
  | put id text =>
    show s.seq ≤ (api_put_todo env id text s).2.seq ∧
      (s.seq ≤ 2147483647 → (api_put_todo env id text s).2.seq ≤ 2147483647)
    rw [(put_cases env id text s).1]
    exact ⟨le_refl _, fun h => h⟩
  | delete id =>
    show s.seq ≤ (api_delete_todo env id s).2.seq ∧
      (s.seq ≤ 2147483647 → (api_delete_todo env id s).2.seq ≤ 2147483647)
    rw [(delete_cases env id s).1]
    exact ⟨le_refl _, fun h => h⟩

/-- The sequence of a store reached through the API never passes its last
value. -/
theorem run_seq (trace : List (Env × Request)) :
    ∀ s : Store, s.seq ≤ 2147483647 → (run s trace).2.seq ≤ 2147483647 := by
  induction trace with
  | nil => intro s h; exact h
  | cons e rest ih =>
    intro s h
    obtain ⟨env, req⟩ := e
    exact ih _ ((handle_seq env req s).2 h)

/-! ## The list after creates and a delete -/

theorem get_todos_shape (env : Env) (s : Store) :
    createdItem (api_get_todos env s).1 = none ∧
    isStatus 201 (api_get_todos env s).1 = false ∧
    isStatus 204 (api_get_todos env s).1 = false := by
  unfold api_get_todos pool_query sqlSelectAll
  cases env.fault <;> exact ⟨rfl, rfl, rfl⟩

theorem get_todo_shape (env : Env) (id : String) (s : Store) :
    createdItem (api_get_todo env id s).1 = none ∧
    isStatus 201 (api_get_todo env id s).1 = false ∧
    isStatus 204 (api_get_todo env id s).1 = false := by
  unfold api_get_todo pool_query sqlSelectById
  cases env.fault with
  | some m => exact ⟨rfl, rfl, rfl⟩
  | none =>
    cases storeInt4In env id with
    | error e => exact ⟨rfl, rfl, rfl⟩
    | ok n =>
      dsimp only
      split
      · exact ⟨rfl, rfl, rfl⟩
      · unfold jsonFirst
        dsimp only
        split <;> exact ⟨rfl, rfl, rfl⟩

theorem delete_shape (env : Env) (id : String) (s : Store) (hwf : s.WF) :
    ((api_delete_todo env id s).2.rows = s.rows ∧
      createdItem (api_delete_todo env id s).1 = none ∧
      isStatus 201 (api_delete_todo env id s).1 = false ∧
      isStatus 204 (api_delete_todo env id s).1 = false) ∨
    ((api_delete_todo env id s).1 = .ok ⟨204, .none⟩ ∧
      ∃ r ∈ s.rows, storeInt4In env id = .ok r.id ∧
        (api_delete_todo env id s).2.rows = s.rows.erase r) := by
  unfold api_delete_todo pool_query
  cases env.fault with
  | some m => left; exact ⟨rfl, rfl, rfl, rfl⟩
  | none =>
    dsimp only
    cases hid : storeInt4In env id with
    | error e =>
      left
      rw [sqlDelete_refused env id s e hid]
      exact ⟨rfl, rfl, rfl, rfl⟩
    | ok n =>
      rw [sqlDelete_read env id s n hid]
      dsimp only
      by_cases hlen : (s.rows.filter (fun r => decide (r.id = n))).length = 0
      · left
        rw [if_pos hlen]
        have hno : ∀ r ∈ s.rows, r.id ≠ n := by
          have := List.length_eq_zero.mp hlen
          simpa [List.filter_eq_nil_iff] using this
        exact ⟨filter_not_id_self _ _ hno, rfl, rfl, rfl⟩
      · right
        rw [if_neg hlen]
        refine ⟨rfl, ?_⟩
        obtain ⟨r, hr⟩ := List.exists_mem_of_length_pos (Nat.pos_of_ne_zero hlen)
        have hr2 := List.mem_filter.mp hr
        have hrid : r.id = n := by simpa using hr2.2
        refine ⟨r, hr2.1, by rw [hrid], ?_⟩
        show s.rows.filter (fun x => !decide (x.id = n)) = s.rows.erase r
        rw [← hrid]
        exact filter_not_id_erase s.rows r hwf.1 hr2.1

theorem deletedId_of_not_204 (env : Env) (req : Request) (o : Outcome)
    (h : isStatus 204 o = false) : deletedId env req o = none := by
  cases req <;> simp [deletedId, h]

theorem handle_shape (env : Env) (req : Request) (s : Store) (hwf : s.WF)
    (hreq : req.isUpdate = false) :
    ((handle env req s).2.rows = s.rows ∧
      createdItem (handle env req s).1 = none ∧
      isStatus 201 (handle env req s).1 = false ∧
      deletedId env req (handle env req s).1 = none ∧
      isStatus 204 (handle env req s).1 = false) ∨
    (∃ item : Todo, (handle env req s).1 = .ok ⟨201, .todo item⟩ ∧
      (handle env req s).2.rows = s.rows ++ [item] ∧
      item.id = ((s.seq + 1 : Nat) : Int) ∧ (handle env req s).2.seq = s.seq + 1 ∧
      deletedId env req (handle env req s).1 = none) ∨
    ((handle env req s).1 = .ok ⟨204, .none⟩ ∧
      ∃ r ∈ s.rows, (handle env req s).2.rows = s.rows.erase r ∧
        deletedId env req (handle env req s).1 = some r.id) := by
  cases req with
  | list =>
    left
    obtain ⟨h1, h2, h3⟩ := get_todos_shape env s
    exact ⟨by simp [handle, get_todos_store], h1, h2, deletedId_of_not_204 _ _ _ h3, h3⟩
  | get id =>
    left
    obtain ⟨h1, h2, h3⟩ := get_todo_shape env id s
    exact ⟨by simp [handle, get_todo_store], h1, h2, deletedId_of_not_204 _ _ _ h3, h3⟩
  | post text =>
    rcases post_cases env text s with ⟨h0, _, h1, h2, h3⟩ | ⟨t, _, _, h⟩
    · left
      exact ⟨h0, h1, h2, deletedId_of_not_204 _ _ _ h3, h3⟩
    · right; left
      refine ⟨⟨((s.seq + 1 : Nat) : Int), trim t, env.now⟩, ?_, ?_, rfl, ?_, rfl⟩
      · show (api_post_todos env text s).1 = _
        rw [h]
      · show (api_post_todos env text s).2.rows = _
        rw [h]
      · show (api_post_todos env text s).2.seq = _
        rw [h]
  | put id text => simp [Request.isUpdate] at hreq
  | delete id =>
    rcases delete_shape env id s hwf with ⟨h0, h1, h2, h3⟩ | ⟨ho, r, hr, hid, hrows⟩
    · left
      exact ⟨h0, h1, h2, deletedId_of_not_204 _ _ _ h3, h3⟩
    · right; right
      refine ⟨ho, r, hr, hrows, ?_⟩
      show deletedId env (.delete id) (api_delete_todo env id s).1 = some r.id
      rw [ho]
      simp [deletedId, isStatus, hid]

theorem run_rows (trace : List (Env × Request)) :
    ∀ s : Store, s.WF → (∀ e ∈ trace, e.2.isUpdate = false) →
      ∃ D : List Todo, D.map Todo.id = deletedIds s trace ∧
        D.length = countStatus 204 (run s trace).1 ∧
        ((run s trace).2.rows ++ D).Perm (s.rows ++ createdItems (run s trace).1) ∧
        (createdItems (run s trace).1).length = countStatus 201 (run s trace).1 ∧
        (∀ t ∈ createdItems (run s trace).1, (s.seq : Int) < t.id) ∧
        ((createdItems (run s trace).1).map Todo.id).Nodup := by
  induction trace with
  | nil =>
    intro s _ _
    exact ⟨[], rfl, rfl, by simp [run, createdItems], rfl, by simp [run, createdItems],
      by simp [run, createdItems]⟩
  | cons e rest ih =>
    intro s hwf hreq
    obtain ⟨env, req⟩ := e
    have hreq1 : req.isUpdate = false := hreq (env, req) (List.mem_cons_self _ _)
    obtain ⟨D, hDid, hD, hperm, hlen, hbig, hnd⟩ :=
      ih (handle env req s).2 (handle_wf env req s hwf)
        (fun e he => hreq e (List.mem_cons_of_mem _ he))
    have hseq := (handle_seq env req s).1
    have hbig2 : ∀ t ∈ createdItems (run (handle env req s).2 rest).1, (s.seq : Int) < t.id := by
      intro t ht
      have := hbig t ht
      have h2 : (s.seq : Int) ≤ ((handle env req s).2.seq : Int) := by exact_mod_cast hseq
      omega
    have hrun1 : (run s ((env, req) :: rest)).1 =
        (handle env req s).1 :: (run (handle env req s).2 rest).1 := rfl
    have hrun2 : (run s ((env, req) :: rest)).2 = (run (handle env req s).2 rest).2 := rfl
    have hdel : deletedIds s ((env, req) :: rest) =
        match deletedId env req (handle env req s).1 with
        | some n => n :: deletedIds (handle env req s).2 rest
        | none => deletedIds (handle env req s).2 rest := rfl
    rw [hrun1, hrun2, hdel]
    rcases handle_shape env req s hwf hreq1 with ⟨hrows, hc, h201, hdid, h204⟩ |
      ⟨item, ho, hrows, hitem, hseq1, hdid⟩ | ⟨ho, r, hr, hrows, hdid⟩
    · refine ⟨D, ?_, ?_, ?_, ?_, ?_, ?_⟩
      · rw [hdid]; exact hDid
      · simp [countStatus, List.countP_cons, h204] at hD ⊢
        exact hD
      · simp only [createdItems, List.filterMap_cons, hc] at hperm ⊢
        rw [← hrows]; exact hperm
      · simp only [createdItems, countStatus, List.filterMap_cons, hc, List.countP_cons, h201]
          at hlen ⊢
        simpa using hlen
      · simp only [createdItems, List.filterMap_cons, hc] at hbig2 ⊢
        exact hbig2
      · simp only [createdItems, List.filterMap_cons, hc] at hnd ⊢
        exact hnd
    · refine ⟨D, ?_, ?_, ?_, ?_, ?_, ?_⟩
      · rw [hdid]; exact hDid
      · rw [ho]
        simp [countStatus, List.countP_cons, isStatus] at hD ⊢
        exact hD
      · rw [ho]
        simp only [createdItems, List.filterMap_cons, createdItem] at hperm ⊢
        rw [hrows, List.append_assoc] at hperm
        exact hperm
      · rw [ho]
        simp only [createdItems, countStatus, List.filterMap_cons, createdItem, List.countP_cons,
          isStatus, List.length_cons] at hlen ⊢
        simpa using hlen
      · rw [ho]
        simp only [createdItems, List.filterMap_cons, createdItem] at hbig2 ⊢
        intro t ht
        rcases List.mem_cons.mp ht with rfl | ht
        · rw [hitem]; push_cast; omega
        · exact hbig2 t ht
      · rw [ho]
        simp only [createdItems, List.filterMap_cons, createdItem] at hnd hbig ⊢
        rw [List.map_cons, List.nodup_cons]
        refine ⟨?_, hnd⟩
        intro hmem
        obtain ⟨t, ht, hti⟩ := List.mem_map.mp hmem
        have := hbig t ht
        rw [hseq1, hti, hitem] at this
        omega
    · refine ⟨r :: D, ?_, ?_, ?_, ?_, ?_, ?_⟩
      · rw [hdid, List.map_cons, hDid]
      · rw [ho]
        simp [countStatus, List.countP_cons, isStatus] at hD ⊢
        exact hD
      · rw [ho]
        simp only [createdItems, List.filterMap_cons, createdItem] at hperm ⊢
        rw [hrows] at hperm
        have h1 : ((run (handle env req s).2 rest).2.rows ++ r :: D).Perm
            (r :: ((run (handle env req s).2 rest).2.rows ++ D)) := List.perm_middle
        have h2 : (r :: (s.rows.erase r ++ List.filterMap createdItem
            (run (handle env req s).2 rest).1)).Perm
            (s.rows ++ List.filterMap createdItem (run (handle env req s).2 rest).1) := by
          rw [← List.cons_append]
          exact List.Perm.append_right _ (List.perm_cons_erase hr).symm
        exact h1.trans ((List.Perm.cons r hperm).trans h2)
      · rw [ho]
        simp only [createdItems, countStatus, List.filterMap_cons, createdItem, List.countP_cons,
          isStatus] at hlen ⊢
        simpa using hlen
      · rw [ho]
        simp only [createdItems, List.filterMap_cons, createdItem] at hbig2 ⊢
        exact hbig2
      · rw [ho]
        simp only [createdItems, List.filterMap_cons, createdItem] at hnd ⊢
        exact hnd

/-- C5: serve, from the empty table, any sequence of requests without an
update in which exactly one delete succeeds (204), and let N be the number of
creates that succeeded (201). A list request whose query does not fail then
answers 200 with N - 1 items: the items returned by the creates, less the item
`d` whose id the successful delete named (no other created item has that id,
and no listed item has it), ordered by `created_at` descending. -/
theorem list_after_creates_and_delete (trace : List (Env × Request)) (env : Env)
    (hreq : ∀ e ∈ trace, e.2.isUpdate = false)
    (hdel : countStatus 204 (run Store.empty trace).1 = 1)
    (hfault : env.fault = none) :
    ∃ (items : List Todo) (d : Todo),
      (api_get_todos env (run Store.empty trace).2).1 = .ok ⟨200, .todos items⟩ ∧
      items.length + 1 = countStatus 201 (run Store.empty trace).1 ∧
      d ∈ createdItems (run Store.empty trace).1 ∧
      deletedIds Store.empty trace = [d.id] ∧
      (∀ t ∈ createdItems (run Store.empty trace).1, t.id = d.id → t = d) ∧
      items.Perm ((createdItems (run Store.empty trace).1).erase d) ∧
      (∀ t ∈ items, t.id ≠ d.id) ∧
      items.Sorted newerFirst := by
  obtain ⟨D, hDid, hD, hperm, hlen, _, hnd⟩ := run_rows trace Store.empty wf_empty hreq
  rw [hdel] at hD
  obtain ⟨d, rfl⟩ := List.length_eq_one.mp hD
  have hperm2 : (d :: (run Store.empty trace).2.rows).Perm
      (createdItems (run Store.empty trace).1) := by
    have h1 : (d :: (run Store.empty trace).2.rows).Perm
        ((run Store.empty trace).2.rows ++ [d]) := (List.perm_append_singleton _ _).symm
    have h2 : (Store.empty.rows ++ createdItems (run Store.empty trace).1) =
        createdItems (run Store.empty trace).1 := rfl
    rw [h2] at hperm
    exact h1.trans hperm
  have hsort : ((run Store.empty trace).2.rows.insertionSort newerFirst).Perm
      (run Store.empty trace).2.rows := List.perm_insertionSort _ _
  have hd : d ∈ createdItems (run Store.empty trace).1 :=
    hperm2.subset (List.mem_cons_self _ _)
  have hitems : ((run Store.empty trace).2.rows.insertionSort newerFirst).Perm
      ((createdItems (run Store.empty trace).1).erase d) := by
    have h3 := List.Perm.erase d hperm2
    rw [List.erase_cons_head] at h3
    exact hsort.trans h3
  have hinj : ∀ t ∈ createdItems (run Store.empty trace).1, t.id = d.id → t = d :=
    fun t ht heq => List.inj_on_of_nodup_map hnd ht hd heq
  refine ⟨(run Store.empty trace).2.rows.insertionSort newerFirst, d, ?_, ?_, hd, ?_, hinj,
    hitems, ?_, ?_⟩
  · simp [api_get_todos, pool_query, hfault, sqlSelectAll]
  · rw [← hlen, ← hperm2.length_eq, hsort.length_eq, List.length_cons]
  · rw [← hDid]; rfl
  · intro t ht heq
    have ht2 : t ∈ (createdItems (run Store.empty trace).1).erase d := hitems.subset ht
    have hnodup : (createdItems (run Store.empty trace).1).Nodup := List.Nodup.of_map _ hnd
    have hne : t ≠ d := fun h => (List.Nodup.not_mem_erase hnodup) (h ▸ ht2)
    exact hne (hinj t (List.mem_of_mem_erase ht2) heq)
  · exact List.sorted_insertionSort _ _

theorem list_after_creates_and_delete_witness :
    ∃ (items : List Todo) (d : Todo),
      (api_get_todos (pg15 9) (run Store.empty
        [(pg15 5, .post (.str "a")), (pg15 7, .post (.str " b")),
         (pg15 6, .post (.str "c")), (pg15 8, .delete "2")]).2).1 =
          .ok ⟨200, .todos items⟩ ∧
      items.length + 1 = countStatus 201 (run Store.empty
        [(pg15 5, .post (.str "a")), (pg15 7, .post (.str " b")),
         (pg15 6, .post (.str "c")), (pg15 8, .delete "2")]).1 ∧
      d ∈ createdItems (run Store.empty
        [(pg15 5, .post (.str "a")), (pg15 7, .post (.str " b")),
         (pg15 6, .post (.str "c")), (pg15 8, .delete "2")]).1 ∧
      deletedIds Store.empty
        [(pg15 5, .post (.str "a")), (pg15 7, .post (.str " b")),
         (pg15 6, .post (.str "c")), (pg15 8, .delete "2")] = [d.id] ∧
      (∀ t ∈ createdItems (run Store.empty
        [(pg15 5, .post (.str "a")), (pg15 7, .post (.str " b")),
         (pg15 6, .post (.str "c")), (pg15 8, .delete "2")]).1, t.id = d.id → t = d) ∧
      items.Perm ((createdItems (run Store.empty
        [(pg15 5, .post (.str "a")), (pg15 7, .post (.str " b")),
         (pg15 6, .post (.str "c")), (pg15 8, .delete "2")]).1).erase d) ∧
      (∀ t ∈ items, t.id ≠ d.id) ∧
      items.Sorted newerFirst :=
  list_after_creates_and_delete
    [(pg15 5, .post (.str "a")), (pg15 7, .post (.str " b")),
     (pg15 6, .post (.str "c")), (pg15 8, .delete "2")] (pg15 9)
    (by decide) (by decide) rfl

/-! ## The edit state of the page -/

theorem put_row_text (env : Env) (s : Store) (id t : String) (r : Todo)
    (hwf : s.WF) (hfault : env.fault = none) (hr : r ∈ s.rows)
    (hid : storeInt4In env id = .ok r.id) (ht : trim t ≠ "")
    (hnul : hasNul (trim t) = false) :
    api_put_todo env id (.str t) s =
      (.ok ⟨200, .todo ⟨r.id, trim t, r.created_at⟩⟩,
        ⟨s.rows.map (fun x => if x = r then (⟨r.id, trim t, r.created_at⟩ : Todo) else x),
          s.seq⟩) := by
  rw [put_str, if_neg ht]
  simp only [pool_query, hfault, sqlUpdate_read env _ id s r.id hnul hid,
    filter_id_singleton s.rows r hwf.1 hr, map_id_only s.rows r (trim t) hwf.1 hr]
  simp [jsonFirst]

/-- C10, as the claim states it, fails at four inputs. In state editing(1)
with an edit field holding only blanks, `saveEdit` issues no request and the
page stays in editing(1). With the field `tea` and a fetch that rejects, the
page stays in editing(1) and the list is not reloaded. In state editing(2)
while the table holds no item 2, the update request is answered 404 and
nothing is stored. With the field `a`, U+0000, `b` the update request for the
stored item 1 is answered 500 and the item keeps its text. -/
theorem saveEdit_counterexample :
    saveEdit (some "   ") .resolved ⟨some 1⟩ = ⟨⟨some 1⟩, [], none⟩ ∧
    saveEdit (some "tea") (.rejected "Failed to fetch") ⟨some 1⟩ =
      ⟨⟨some 1⟩, [Fetch.put 1 "tea"], some "Failed to fetch"⟩ ∧
    (saveEdit (some "tea") .resolved ⟨some 2⟩ = ⟨⟨none⟩, [Fetch.put 2 "tea", Fetch.list], none⟩ ∧
      handle (pg15 7) (Fetch.put 2 "tea").toRequest ⟨[⟨1, "a", 3⟩], 2⟩ =
        (.ok ⟨404, .error "Tarea no encontrada"⟩, ⟨[⟨1, "a", 3⟩], 2⟩)) ∧
    (saveEdit (some "a\x00b") .resolved ⟨some 1⟩ =
        ⟨⟨none⟩, [Fetch.put 1 "a\x00b", Fetch.list], none⟩ ∧
      handle (pg15 7) (Fetch.put 1 "a\x00b").toRequest ⟨[⟨1, "a", 3⟩], 2⟩ =
        (.ok ⟨500, .error "invalid byte sequence for encoding \"UTF8\": 0x00"⟩,
          ⟨[⟨1, "a", 3⟩], 2⟩)) := by
  decide

/-- C10 (amended), for the page in state editing(`r.id`) and the edit field
holding `value`.

* When `value` is non-empty after trimming, `r.id` is not 0 and the fetch of
  the update request resolves, `saveEdit` issues one update request for
  `r.id` carrying the trimmed text, then the reload of the list, and leaves
  the page in viewing. When moreover `r` is a row of a consistent store whose
  sequence has not passed its last value (as in every store reached through
  the API, see `run_wf` and `run_seq`), nothing outside makes the query fail
  and the trimmed text holds no U+0000, the API serving that request answers
  200 and stores the trimmed text in the row `r`, changing nothing else.
* When the fetch rejects, the rejection leaves `saveEdit`, the page stays in
  editing(`r.id`) and the list is not reloaded; when the fetch never settles,
  the page stays in editing(`r.id`) as well.
* When `value` is empty after trimming, `saveEdit` issues no request and the
  page stays in editing(`r.id`).
* `cancelEdit` leaves the page in viewing and issues only the reload of the
  list. -/
theorem edit_confirm_cancel (env : Env) (s : Store) (r : Todo) (value : String) :
    (r.id ≠ 0 → trim value ≠ "" →
      saveEdit (some value) .resolved ⟨some r.id⟩ =
        ⟨⟨none⟩, [Fetch.put r.id (trim value), Fetch.list], none⟩) ∧
    (s.WF → s.seq ≤ 2147483647 → r ∈ s.rows → env.fault = none →
      trim value ≠ "" → hasNul (trim value) = false →
      handle env (Fetch.put r.id (trim value)).toRequest s =
        (.ok ⟨200, .todo ⟨r.id, trim value, r.created_at⟩⟩,
          ⟨s.rows.map (fun x => if x = r then (⟨r.id, trim value, r.created_at⟩ : Todo) else x),
            s.seq⟩)) ∧
    (∀ m : String, r.id ≠ 0 → trim value ≠ "" →
      saveEdit (some value) (.rejected m) ⟨some r.id⟩ =
        ⟨⟨some r.id⟩, [Fetch.put r.id (trim value)], some m⟩) ∧
    (r.id ≠ 0 → trim value ≠ "" →
      saveEdit (some value) .pending ⟨some r.id⟩ =
        ⟨⟨some r.id⟩, [Fetch.put r.id (trim value)], none⟩) ∧
    (∀ answer : FetchEnd, trim value = "" →
      saveEdit (some value) answer ⟨some r.id⟩ = ⟨⟨some r.id⟩, [], none⟩) ∧
    cancelEdit ⟨some r.id⟩ = (⟨none⟩, [Fetch.list]) := by
  refine ⟨?_, ?_, ?_, ?_, ?_, rfl⟩
  · intro hid hv
    simp [saveEdit, idNot, hid, hv, loadTodos]
  · intro hwf hseq hr hfault hv hnul
    have hpos := hwf.2 r hr
    have hle : r.id ≤ 2147483647 := by
      have h2 : (s.seq : Int) ≤ 2147483647 := by exact_mod_cast hseq
      exact le_trans hpos.2 h2
    have hread : storeInt4In env (toString r.id) = .ok r.id :=
      storeInt4In_decimal env _ _ (pgInt4In_toString r.id (le_of_lt hpos.1) hle)
    have hv2 : trim (trim value) ≠ "" := by rw [trim_idem]; exact hv
    have hnul2 : hasNul (trim (trim value)) = false := by rw [trim_idem]; exact hnul
    have h := put_row_text env s (toString r.id) (trim value) r hwf hfault hr hread hv2 hnul2
    rw [trim_idem] at h
    exact h
  · intro m hid hv
    simp [saveEdit, idNot, hid, hv]
  · intro hid hv
    simp [saveEdit, idNot, hid, hv]
  · intro answer hv
    simp [saveEdit, hv]

theorem edit_confirm_cancel_witness :
    saveEdit (some " Buy bread ") .resolved ⟨some 2⟩ =
      ⟨⟨none⟩, [Fetch.put 2 (trim " Buy bread "), Fetch.list], none⟩ ∧
    handle (pg15 9) (Fetch.put 2 (trim " Buy bread ")).toRequest
        ⟨[⟨1, "a", 3⟩, ⟨2, "b", 4⟩], 2⟩ =
      (.ok ⟨200, .todo ⟨2, trim " Buy bread ", 4⟩⟩,
        ⟨[⟨1, "a", 3⟩, ⟨2, "b", 4⟩].map
          (fun x => if x = (⟨2, "b", 4⟩ : Todo) then (⟨2, trim " Buy bread ", 4⟩ : Todo) else x),
          2⟩) ∧
    saveEdit (some " Buy bread ") (.rejected "Failed to fetch") ⟨some 2⟩ =
      ⟨⟨some 2⟩, [Fetch.put 2 (trim " Buy bread ")], some "Failed to fetch"⟩ ∧
    saveEdit (some "  ") .resolved ⟨some 2⟩ = ⟨⟨some 2⟩, [], none⟩ :=
  ⟨(edit_confirm_cancel (pg15 9) ⟨[⟨1, "a", 3⟩, ⟨2, "b", 4⟩], 2⟩ ⟨2, "b", 4⟩ " Buy bread ").1
      (by decide) (by decide),
   (edit_confirm_cancel (pg15 9) ⟨[⟨1, "a", 3⟩, ⟨2, "b", 4⟩], 2⟩ ⟨2, "b", 4⟩ " Buy bread ").2.1
      ⟨by decide, by decide⟩ (by decide) (by decide) rfl (by decide) (by decide),
   (edit_confirm_cancel (pg15 9) ⟨[⟨1, "a", 3⟩, ⟨2, "b", 4⟩], 2⟩ ⟨2, "b", 4⟩ " Buy bread ").2.2.1
      "Failed to fetch" (by decide) (by decide),
   (edit_confirm_cancel (pg15 9) ⟨[⟨1, "a", 3⟩, ⟨2, "b", 4⟩], 2⟩ ⟨2, "b", 4⟩ "  ").2.2.2.2.1
      .resolved (by decide)⟩

end TodoApp
